import Mathlib

/-!
Verification of the MiColors color-generator core.

Shallow embedding of `src/js/utils/color-scales.js` and
`src/js/utils/color-harmony.js`.  JavaScript numbers are modelled by `ℚ`
wherever the code only performs field arithmetic, comparisons and
`Math.round`/`Math.floor`; the WCAG luminance computation uses
`Math.pow(·, 2.4)` and is modelled over `ℝ` with real exponentiation.
JavaScript strings are modelled by `List Char`.
-/

/-- An HSL color `{h, s, l}` as used throughout the source. -/
structure HSL where
  h : ℚ
  s : ℚ
  l : ℚ
deriving DecidableEq

/-- An RGB color `{r, g, b}`. -/
structure RGB where
  r : ℤ
  g : ℤ
  b : ℤ
deriving DecidableEq

/-- JavaScript `Math.round`: round half toward positive infinity. -/
def jsRound (x : ℚ) : ℤ := ⌊x + 1/2⌋

/-- JavaScript truncating division result (`ToInt` of `a/b`), used by the
binary `%` operator: truncation toward zero. -/
def ratTrunc (q : ℚ) : ℤ := if q < 0 then ⌈q⌉ else ⌊q⌋

/-- JavaScript `%` on numbers: `a - b * trunc (a / b)` (remainder with the
sign of the dividend). -/
def jsMod (a b : ℚ) : ℚ := a - b * (ratTrunc (a / b) : ℚ)

/-! ## color-scales.js : generateScale -/

/-- A step of a tonal scale, `{ key, h, s, l }` as pushed by
`generateScale` (`h` is passed through unrounded, `s` and `l` are
`Math.round`ed). -/
structure ScaleStep where
  key : ℤ
  h : ℚ
  s : ℤ
  l : ℤ
deriving DecidableEq

/-- The `levels` array of `generateScale`. -/
def levels : List ℤ := [50, 100, 200, 300, 400, 500, 600, 700, 800, 900]

/-- `generateScale` from `color-scales.js` (lines 6-50): linear
interpolation of lightness toward 100 below key 500 and toward 0 above it,
with a +5 saturation boost (capped at 100) for the dark shades. -/
def generateScale (h s l : ℚ) : List ScaleStep :=
  levels.map fun level =>
    let nls : ℚ × ℚ :=
      if level = 500 then (l, s)
      else if level < 500 then
        (l + (100 - l) * (((500 - level : ℤ) : ℚ) / 500) * (9/10), s)
      else
        (l - l * (((level - 500 : ℤ) : ℚ) / 400) * (9/10), min 100 (s + 5))
    { key := level, h := h, s := jsRound nls.2, l := jsRound nls.1 }

/-! ## contrast evaluation (modelled over ℝ because of `Math.pow(·, 2.4)`) -/

/-- The per-channel sRGB gamma linearization used by `getLuminance`. -/
noncomputable def gammaExpand (v : ℝ) : ℝ :=
  if v ≤ 0.03928 then v / 12.92 else ((v + 0.055) / 1.055) ^ (2.4 : ℝ)

/-- `getLuminance` from `color-scales.js`: weighted sum of the
gamma-linearized channels. -/
noncomputable def getLuminance (c : RGB) : ℝ :=
  gammaExpand ((c.r : ℝ) / 255) * 0.2126 +
    gammaExpand ((c.g : ℝ) / 255) * 0.7152 +
    gammaExpand ((c.b : ℝ) / 255) * 0.0722

/-- `getContrastRatio`: `(brightest + 0.05) / (darkest + 0.05)`. -/
noncomputable def getContrastRatio (rgb1 rgb2 : RGB) : ℝ :=
  let lum1 := getLuminance rgb1
  let lum2 := getLuminance rgb2
  (max lum1 lum2 + 0.05) / (min lum1 lum2 + 0.05)

/-- The selection rule in the last line of `getAccessibleTextColor`:
`whiteContrast > blackContrast ? '#ffffff' : '#000000'`. -/
noncomputable def textColorForContrasts (whiteContrast blackContrast : ℝ) : String :=
  if blackContrast < whiteContrast then "#ffffff" else "#000000"

/-- `getAccessibleTextColor` from `color-scales.js` (lines 87-95). -/
noncomputable def getAccessibleTextColor (bgRgb : RGB) : String :=
  let whiteContrast := getContrastRatio bgRgb ⟨255, 255, 255⟩
  let blackCon := getContrastRatio bgRgb ⟨0, 0, 0⟩
  textColorForContrasts whiteContrast blackCon

/-- Result record of `checkWcag`. -/
structure WcagResult where
  aa : Bool
  aaa : Bool
  aaLarge : Bool
  aaaLarge : Bool
deriving DecidableEq

/-- `checkWcag` from `color-scales.js` (lines 102-109).  The threshold
comparisons involve no transcendental arithmetic, so the function is
modelled over `ℚ`. -/
def checkWcag (x : ℚ) : WcagResult :=
  { aa := decide (x ≥ 4.5)
    aaa := decide (x ≥ 7)
    aaLarge := decide (x ≥ 3)
    aaaLarge := decide (x ≥ 4.5) }

/-! ## hex parsing and formatting -/

/-- One hex digit character, lowercase, as produced by
`Number.prototype.toString(16)`. -/
def hexDigitChar (n : ℕ) : Char :=
  if n < 10 then Char.ofNat ('0'.toNat + n) else Char.ofNat ('a'.toNat + (n - 10))

/-- Value of a hex digit character (the character class accepted by
`parseInt(·, 16)` and by the `[0-9A-Fa-f]` regex class). -/
def hexDigitVal? (c : Char) : Option ℕ :=
  if '0' ≤ c ∧ c ≤ '9' then some (c.toNat - '0'.toNat)
  else if 'a' ≤ c ∧ c ≤ 'f' then some (c.toNat - 'a'.toNat + 10)
  else if 'A' ≤ c ∧ c ≤ 'F' then some (c.toNat - 'A'.toNat + 10)
  else none

/-- Whether a character is a hex digit. -/
def isHexDigit (c : Char) : Bool := (hexDigitVal? c).isSome

/-- Modelled JS `parseInt(s, 16)`: an optional `0x`/`0X` prefix is
skipped, then the longest leading run of hex digits is read; `none`
models `NaN` (no digits).  Leading whitespace and sign handling are
omitted: the callers in this codebase only pass hash-stripped color
strings, and the result is routed through `ToInt32` (below) which maps
`NaN` to 0 anyway. -/
def parseInt16 (l : List Char) : Option ℕ :=
  let l' : List Char :=
    match l with
    | c0 :: c1 :: rest =>
      if c0 = '0' ∧ (c1 = 'x' ∨ c1 = 'X') then rest else c0 :: c1 :: rest
    | _ => l
  let ds := l'.takeWhile isHexDigit
  if ds.isEmpty then none
  else some (ds.foldl (fun acc c => 16 * acc + (hexDigitVal? c).getD 0) 0)

/-- `hex.replace(/^#/, '')`: drop a single leading `#`. -/
def stripHash (l : List Char) : List Char :=
  match l with
  | c :: rest => if c = '#' then rest else c :: rest
  | [] => []

/-- Shorthand expansion `hex.split('').map(c => c + c).join('')`. -/
def expandShorthand (l : List Char) : List Char :=
  (l.map fun c => [c, c]).flatten

/-- The tail of `hexToRgb` after shorthand expansion: the length-6 check,
`parseInt(hex, 16)` (with JS `>>`/`&` applying `ToInt32`, which maps `NaN`
to 0), and the three shift-and-mask channel extractions. -/
def hexSixToRgb (l : List Char) : Option RGB :=
  if l.length = 6 then
    let bigint : ℕ := (parseInt16 l).getD 0
    some { r := ((bigint >>> 16) &&& 255 : ℕ)
           g := ((bigint >>> 8) &&& 255 : ℕ)
           b := ((bigint &&& 255 : ℕ) : ℤ) }
  else none

/-- `hexToRgb` from `color-scales.js` (lines 115-133). -/
def hexToRgb (s : List Char) : Option RGB :=
  match s with
  | [] => none
  | c :: cs =>
    let t := stripHash (c :: cs)
    let t := if t.length = 3 then expandShorthand t else t
    hexSixToRgb t

/-- `natToHex n` models `n.toString(16)` for `n` in `[0, 255]` (the
clamped range that `rgbToHex` feeds it): one or two lowercase hex digits
with no leading zero. -/
def natToHex (n : ℕ) : List Char :=
  if n < 16 then [hexDigitChar n] else [hexDigitChar (n / 16), hexDigitChar (n % 16)]

/-- The inner `toHex` arrow function of `rgbToHex`: clamp to `[0, 255]`,
hex-encode, pad to two digits. -/
def toHexChannel (c : ℤ) : List Char :=
  let n := (max 0 (min 255 c)).toNat
  let hx := natToHex n
  if hx.length = 1 then '0' :: hx else hx

/-- `rgbToHex` from `color-scales.js` (lines 218-224). -/
def rgbToHex (r g b : ℤ) : List Char :=
  '#' :: (toHexChannel r ++ toHexChannel g ++ toHexChannel b)

/-- `isValidHex` from `color-scales.js` (lines 231-233): the regex
`^#?([0-9A-Fa-f]{3}){1,2}$`, i.e. an optional leading `#` followed by
exactly 3 or exactly 6 hex digits. -/
def isValidHex (s : List Char) : Bool :=
  ((stripHash s).length = 3 || (stripHash s).length = 6) &&
    (stripHash s).all isHexDigit

/-! ## rgbToHsl and hslToRgb -/

/-- `rgbToHsl` from `color-scales.js` (lines 142-169).  The hue/saturation
pair is selected by the `max == min` branch; the returned record rounds
`h*360`, `s*100` and `l*100`. -/
def rgbToHsl (r g b : ℚ) : HSL :=
  let r := r / 255
  let g := g / 255
  let b := b / 255
  let mx := max r (max g b)
  let mn := min r (min g b)
  let l := (mx + mn) / 2
  let hs : ℚ × ℚ :=
    if mx = mn then (0, 0)
    else
      let d := mx - mn
      let s := if 1/2 < l then d / (2 - mx - mn) else d / (mx + mn)
      let hRaw :=
        if mx = r then (g - b) / d + (if g < b then (6 : ℚ) else 0)
        else if mx = g then (b - r) / d + 2
        else (r - g) / d + 4
      (hRaw / 6, s)
  { h := (jsRound (hs.1 * 360) : ℤ)
    s := (jsRound (hs.2 * 100) : ℤ)
    l := (jsRound (l * 100) : ℤ) }

/-- The `hue2rgb` helper of `hslToRgb`. -/
def hue2rgb (p q t : ℚ) : ℚ :=
  let t1 := if t < 0 then t + 1 else t
  let t2 := if 1 < t1 then t1 - 1 else t1
  if t2 < 1/6 then p + (q - p) * 6 * t2
  else if t2 < 1/2 then q
  else if t2 < 2/3 then p + (q - p) * (2/3 - t2) * 6
  else p

/-- `hslToRgb` from `color-scales.js` (lines 178-209). -/
def hslToRgb (h s l : ℚ) : RGB :=
  let h := h / 360
  let s := s / 100
  let l := l / 100
  if s = 0 then
    let v := jsRound (l * 255)
    { r := v, g := v, b := v }
  else
    let q := if l < 1/2 then l * (1 + s) else l + s - l * s
    let p := 2 * l - q
    { r := jsRound (hue2rgb p q (h + 1/3) * 255)
      g := jsRound (hue2rgb p q h * 255)
      b := jsRound (hue2rgb p q (h - 1/3) * 255) }

/-! ## color-harmony.js : generateHarmony -/

/-- The `normalizeHue` helper of `generateHarmony`:
`(hue % 360 + 360) % 360` with the JS truncating `%`. -/
def normalizeHue (hue : ℚ) : ℚ := jsMod (jsMod hue 360 + 360) 360

/-- `generateHarmony` from `color-harmony.js` (lines 7-75). -/
def generateHarmony (baseHsl : HSL) (type : String) : List HSL :=
  let h := baseHsl.h
  let s := baseHsl.s
  let l := baseHsl.l
  if type = "monochromatic" then
    [baseHsl,
     { h := h, s := s, l := max 0 (min 100 (l + 30)) },
     { h := h, s := s, l := max 0 (min 100 (l - 30)) },
     { h := h, s := max 0 (min 100 (s - 20)), l := min 95 (l + 40) },
     { h := h, s := min 100 (s + 20), l := max 10 (l - 30) }]
  else if type = "analogous" then
    [baseHsl,
     { h := normalizeHue (h + 30), s := s, l := l },
     { h := normalizeHue (h - 30), s := s, l := l },
     { h := normalizeHue (h + 60), s := s, l := l },
     { h := normalizeHue (h - 60), s := s, l := l }]
  else if type = "complementary" then
    [baseHsl,
     { h := normalizeHue (h + 180), s := s, l := l },
     { h := normalizeHue (h + 180), s := s, l := min 90 (l + 20) },
     { h := normalizeHue (h + 180), s := s, l := max 10 (l - 20) },
     { h := h, s := s, l := max 10 (l - 30) }]
  else if type = "split-complementary" then
    [baseHsl,
     { h := normalizeHue (h + 150), s := s, l := l },
     { h := normalizeHue (h + 210), s := s, l := l },
     { h := normalizeHue (h + 150), s := s, l := max 10 (l - 20) },
     { h := normalizeHue (h + 210), s := s, l := max 10 (l - 20) }]
  else if type = "triadic" then
    [baseHsl,
     { h := normalizeHue (h + 120), s := s, l := l },
     { h := normalizeHue (h + 240), s := s, l := l },
     { h := normalizeHue (h + 120), s := s, l := max 10 (l - 20) },
     { h := normalizeHue (h + 240), s := s, l := max 10 (l - 20) }]
  else [baseHsl]

/-! ## palette state (visualizer.js application state) -/

/-- The `types` array of `pickRandomHarmony`. -/
def harmonyTypes : List String :=
  ["monochromatic", "analogous", "complementary", "split-complementary", "triadic"]

/-- The mutable application `state` object of `visualizer.js`:
`lockedIndices` is a JS `Set`, `lockedColors` a map from index to the
frozen HSL value. -/
structure PaletteState where
  baseColor : HSL
  harmonyType : String
  activeRandomHarmony : String
  lockedIndices : Finset ℕ
  lockedColors : ℕ → Option HSL

/-- `pickRandomHarmony`: `types[Math.floor(Math.random() * types.length)]`,
with the `Math.random()` draw passed in explicitly. -/
def pickRandomHarmony (rnd : ℚ) (st : PaletteState) : PaletteState :=
  { st with activeRandomHarmony := harmonyTypes.getD (⌊rnd * 5⌋).toNat "" }

/-- `toggleLock` from `visualizer.js` (lines 396-405), without the
trailing `updateUI()` re-render (rendering is modelled separately by
`finalColors`). -/
def toggleLock (index : ℕ) (color : HSL) (st : PaletteState) : PaletteState :=
  if index ∈ st.lockedIndices then
    { st with
      lockedIndices := st.lockedIndices.erase index
      lockedColors := fun i => if i = index then none else st.lockedColors i }
  else
    { st with
      lockedIndices := insert index st.lockedIndices
      lockedColors := fun i => if i = index then some color else st.lockedColors i }

/-- `randomize` from `visualizer.js` (lines 159-184), with the four
`Math.random()`/`Math.floor` draws passed in explicitly: one for the
harmony rule re-pick and three for the new base color. -/
def randomize (rndRule rndH rndS rndL : ℚ) (st : PaletteState) : PaletteState :=
  let st1 := if st.harmonyType = "random" then pickRandomHarmony rndRule st else st
  if 0 ∈ st1.lockedIndices then st1
  else
    { st1 with
      baseColor :=
        { h := (⌊rndH * 360⌋ : ℤ)
          s := ((⌊rndS * 40⌋ + 60 : ℤ) : ℚ)
          l := ((⌊rndL * 40⌋ + 40 : ℤ) : ℚ) } }

/-- The effective harmony rule computed in `updateUI` step 2. -/
def effectiveType (st : PaletteState) : String :=
  if st.harmonyType = "random" then st.activeRandomHarmony else st.harmonyType

/-- The lock overlay of `updateUI` step 3:
`harmonyColors.map((color, index) => locked ? lockedColors[index] : color)`.
A locked index always carries a frozen color in `lockedColors` (this sync
is maintained by `toggleLock`); `getD` supplies the candidate in the
unreachable desynchronized case. -/
def overlayLocked (st : PaletteState) : ℕ → List HSL → List HSL
  | _, [] => []
  | i, c :: cs =>
    (if i ∈ st.lockedIndices then (st.lockedColors i).getD c else c) ::
      overlayLocked st (i + 1) cs

/-- The rendered (post-overlay) palette computed by `updateUI` steps 2-3. -/
def finalColors (st : PaletteState) : List HSL :=
  overlayLocked st 0 (generateHarmony st.baseColor (effectiveType st))

/-! ## rounding and modulo helper lemmas -/

theorem jsRound_eq_of_bounds (x : ℚ) (n : ℤ) (h1 : (n : ℚ) - 1/2 ≤ x)
    (h2 : x < (n : ℚ) + 1/2) : jsRound x = n := by
  unfold jsRound
  rw [Int.floor_eq_iff]
  constructor <;> linarith

theorem jsRound_le (x : ℚ) : (jsRound x : ℚ) ≤ x + 1/2 := by
  unfold jsRound
  exact Int.floor_le _

theorem lt_jsRound (x : ℚ) : x - 1/2 < (jsRound x : ℚ) := by
  unfold jsRound
  have := Int.lt_floor_add_one (x + 1/2)
  linarith

theorem jsRound_intCast (n : ℤ) : jsRound (n : ℚ) = n := by
  apply jsRound_eq_of_bounds <;> norm_num

theorem floor_intCast_div (a b : ℤ) (hb : 0 < b) :
    ⌊(a : ℚ) / (b : ℚ)⌋ = a / b := by
  have hkey : (a : ℚ) = (b : ℚ) * ((a / b : ℤ) : ℚ) + ((a % b : ℤ) : ℚ) := by
    exact_mod_cast (Int.ediv_add_emod a b).symm
  have hb' : (0 : ℚ) < (b : ℚ) := by exact_mod_cast hb
  have hr0 : (0 : ℚ) ≤ ((a % b : ℤ) : ℚ) := by
    exact_mod_cast Int.emod_nonneg a (ne_of_gt hb)
  have hrb : ((a % b : ℤ) : ℚ) < (b : ℚ) := by
    exact_mod_cast Int.emod_lt_of_pos a hb
  rw [Int.floor_eq_iff]
  constructor
  · rw [le_div_iff₀ hb']
    nlinarith
  · rw [div_lt_iff₀ hb']
    nlinarith

theorem ratTrunc_intCast_div (a b : ℤ) (ha : 0 ≤ a) (hb : 0 < b) :
    ratTrunc ((a : ℚ) / (b : ℚ)) = a / b := by
  unfold ratTrunc
  have hb' : (0 : ℚ) < (b : ℚ) := by exact_mod_cast hb
  have ha' : (0 : ℚ) ≤ (a : ℚ) := by exact_mod_cast ha
  rw [if_neg (not_lt.2 (by positivity)), floor_intCast_div a b hb]

theorem jsMod_int360 (a : ℤ) (ha : 0 ≤ a) :
    jsMod (a : ℚ) 360 = ((a % 360 : ℤ) : ℚ) := by
  unfold jsMod
  have h360 : (360 : ℚ) = ((360 : ℤ) : ℚ) := by norm_num
  rw [h360, ratTrunc_intCast_div a 360 ha (by norm_num), Int.emod_def]
  push_cast
  ring

theorem normalizeHue_intCast (a : ℤ) (ha : 0 ≤ a) :
    normalizeHue (a : ℚ) = ((a % 360 : ℤ) : ℚ) := by
  unfold normalizeHue
  rw [jsMod_int360 a ha]
  have h1 : ((a % 360 : ℤ) : ℚ) + 360 = ((a % 360 + 360 : ℤ) : ℚ) := by
    push_cast
    ring
  rw [h1, jsMod_int360 (a % 360 + 360) (by omega)]
  congr 1
  omega

theorem lt_jsRound_of_le (x : ℚ) (n : ℤ) (hx : (n : ℚ) + 1/2 ≤ x) : n < jsRound x := by
  have h := lt_jsRound x
  have hq : (n : ℚ) < (jsRound x : ℚ) := by linarith
  exact_mod_cast hq

theorem jsRound_lt_of_lt (x : ℚ) (n : ℤ) (hx : x < (n : ℚ) - 1/2) : jsRound x < n := by
  have h := jsRound_le x
  have hq : (jsRound x : ℚ) < (n : ℚ) := by linarith
  exact_mod_cast hq

/-! ## C1 : accessible text color -/

/-- C1 (counterexample): at equal white and black contrast ratios the
source's strict `>` comparison selects black, not white as the claim
states. -/
theorem textColorForContrasts_tie_black : textColorForContrasts 1 1 = "#000000" := by
  unfold textColorForContrasts
  rw [if_neg (lt_irrefl (1 : ℝ))]

/-- C1 (amended): `getAccessibleTextColor` returns white exactly when the
contrast against white is strictly greater than the contrast against
black, and black otherwise — in particular ties favor black. -/
theorem getAccessibleTextColor_spec (bg : RGB) :
    (getAccessibleTextColor bg = "#ffffff" ↔
      getContrastRatio bg ⟨0, 0, 0⟩ < getContrastRatio bg ⟨255, 255, 255⟩) ∧
    (getAccessibleTextColor bg = "#000000" ↔
      getContrastRatio bg ⟨255, 255, 255⟩ ≤ getContrastRatio bg ⟨0, 0, 0⟩) := by
  unfold getAccessibleTextColor textColorForContrasts
  by_cases hc : getContrastRatio bg ⟨0, 0, 0⟩ < getContrastRatio bg ⟨255, 255, 255⟩
  · rw [if_pos hc]
    constructor
    · simpa using hc
    · constructor
      · intro hEq
        exact absurd hEq (by decide)
      · intro hle
        exact absurd hc (not_lt.2 hle)
  · rw [if_neg hc]
    constructor
    · constructor
      · intro hEq
        exact absurd hEq (by decide)
      · intro hlt
        exact absurd hlt hc
    · simpa using not_lt.1 hc

theorem getAccessibleTextColor_spec_witness :
    (getAccessibleTextColor ⟨0, 0, 0⟩ = "#ffffff" ↔
      getContrastRatio ⟨0, 0, 0⟩ ⟨0, 0, 0⟩ < getContrastRatio ⟨0, 0, 0⟩ ⟨255, 255, 255⟩) ∧
    (getAccessibleTextColor ⟨0, 0, 0⟩ = "#000000" ↔
      getContrastRatio ⟨0, 0, 0⟩ ⟨255, 255, 255⟩ ≤ getContrastRatio ⟨0, 0, 0⟩ ⟨0, 0, 0⟩) :=
  getAccessibleTextColor_spec ⟨0, 0, 0⟩

/-! ## C9 : WCAG thresholds -/

/-- C9: `checkWcag` classifies by the thresholds 4.5 / 7 / 3 / 4.5, so
`aaaLarge` always coincides with `aa`, the 4.5 boundary is inclusive for
`aa`, and every ratio strictly below 4.5 fails `aa`. -/
theorem checkWcag_spec (x : ℚ) :
    ((checkWcag x).aa = decide (x ≥ 4.5)) ∧
    ((checkWcag x).aaa = decide (x ≥ 7)) ∧
    ((checkWcag x).aaLarge = decide (x ≥ 3)) ∧
    ((checkWcag x).aaaLarge = (checkWcag x).aa) ∧
    ((checkWcag (4.5 : ℚ)).aa = true) ∧
    (x < 4.5 → (checkWcag x).aa = false) := by
  refine ⟨rfl, rfl, rfl, rfl, by norm_num [checkWcag], fun hx => ?_⟩
  simp only [checkWcag]
  exact decide_eq_false (not_le.2 hx)

theorem checkWcag_spec_witness :
    (checkWcag 2).aa = false ∧ (checkWcag (4.5 : ℚ)).aa = true :=
  ⟨(checkWcag_spec 2).2.2.2.2.2 (by norm_num), (checkWcag_spec 2).2.2.2.2.1⟩

/-! ## C3 : harmony length and base preservation -/

/-- C3: for each of the five rule names `generateHarmony` returns exactly
5 colors whose first element is the base unchanged; for any other rule
string it returns the single-element list `[base]`. -/
theorem generateHarmony_base_and_length (base : HSL) (rule : String) :
    (generateHarmony base rule).head? = some base ∧
    (generateHarmony base rule).length = (if rule ∈ harmonyTypes then 5 else 1) ∧
    (rule ∈ harmonyTypes ∨ generateHarmony base rule = [base]) := by
  by_cases hm : rule ∈ harmonyTypes
  · simp only [harmonyTypes, List.mem_cons, List.not_mem_nil, or_false] at hm
    rcases hm with rfl | rfl | rfl | rfl | rfl
    all_goals refine ⟨rfl, ?_, Or.inl (by decide)⟩
    all_goals simp [generateHarmony, harmonyTypes]
  · have hne : rule ≠ "monochromatic" ∧ rule ≠ "analogous" ∧ rule ≠ "complementary" ∧
        rule ≠ "split-complementary" ∧ rule ≠ "triadic" := by
      simp only [harmonyTypes, List.mem_cons, List.not_mem_nil, or_false, not_or] at hm
      exact hm
    obtain ⟨n1, n2, n3, n4, n5⟩ := hne
    refine ⟨?_, ?_, Or.inr ?_⟩ <;>
      simp [generateHarmony, n1, n2, n3, n4, n5, if_neg, hm]

theorem generateHarmony_base_and_length_witness :
    (generateHarmony ⟨217, 91, 60⟩ "triadic").head? = some ⟨217, 91, 60⟩ ∧
    (generateHarmony ⟨217, 91, 60⟩ "triadic").length =
      (if "triadic" ∈ harmonyTypes then 5 else 1) ∧
    ("triadic" ∈ harmonyTypes ∨ generateHarmony ⟨217, 91, 60⟩ "triadic" = [⟨217, 91, 60⟩]) :=
  generateHarmony_base_and_length ⟨217, 91, 60⟩ "triadic"

/-! ## C5 : the complementary rule table -/

/-- C5: the complementary harmony is exactly base, three variants of the
hue rotated by 180 degrees (one at the base lightness, one lightened by
20 capped at 90, one darkened by 20 floored at 10), and a darker base
(darkened by 30, floored at 10). -/
theorem generateHarmony_complementary (h s l : ℤ) (h0 : 0 ≤ h) (h360 : h < 360) :
    generateHarmony ⟨(h : ℚ), (s : ℚ), (l : ℚ)⟩ "complementary" =
      [⟨(h : ℚ), (s : ℚ), (l : ℚ)⟩,
       ⟨(((h + 180) % 360 : ℤ) : ℚ), (s : ℚ), (l : ℚ)⟩,
       ⟨(((h + 180) % 360 : ℤ) : ℚ), (s : ℚ), min 90 ((l : ℚ) + 20)⟩,
       ⟨(((h + 180) % 360 : ℤ) : ℚ), (s : ℚ), max 10 ((l : ℚ) - 20)⟩,
       ⟨(h : ℚ), (s : ℚ), max 10 ((l : ℚ) - 30)⟩] := by
  have hcast : (h : ℚ) + 180 = ((h + 180 : ℤ) : ℚ) := by
    push_cast
    ring
  have hn : normalizeHue ((h : ℚ) + 180) = (((h + 180) % 360 : ℤ) : ℚ) := by
    rw [hcast, normalizeHue_intCast (h + 180) (by omega)]
  simp [generateHarmony, hn]

/-- C5 witness: the spec's worked example at base `{h:217, s:91, l:60}`. -/
theorem generateHarmony_complementary_witness :
    generateHarmony ⟨217, 91, 60⟩ "complementary" =
      [⟨217, 91, 60⟩, ⟨37, 91, 60⟩, ⟨37, 91, 80⟩, ⟨37, 91, 40⟩, ⟨217, 91, 30⟩] := by
  have e := generateHarmony_complementary 217 91 60 (by norm_num) (by norm_num)
  norm_num at e
  exact e

/-! ## C6 : tonal scale -/

/-- C6: `generateScale` returns the ten keys 50..900 in order, the key-500
step is the base unchanged, hue is never altered, and for base lightness
strictly between 10 and 90 every step below 500 is strictly lighter and
every step above 500 strictly darker than the base. -/
theorem generateScale_spec (h s l : ℤ) :
    ((generateScale (h : ℚ) (s : ℚ) (l : ℚ)).map fun st => st.key) =
      [50, 100, 200, 300, 400, 500, 600, 700, 800, 900] ∧
    (generateScale (h : ℚ) (s : ℚ) (l : ℚ)).get? 5 = some ⟨500, (h : ℚ), s, l⟩ ∧
    (∀ step ∈ generateScale (h : ℚ) (s : ℚ) (l : ℚ), step.h = (h : ℚ)) ∧
    (10 < l → l < 90 →
      ∀ step ∈ generateScale (h : ℚ) (s : ℚ) (l : ℚ),
        (step.key < 500 → l < step.l) ∧ (500 < step.key → step.l < l)) := by
  refine ⟨by simp [generateScale, levels], ?_, ?_, ?_⟩
  · simp [generateScale, levels, jsRound_intCast]
  · intro step hstep
    simp [generateScale, levels] at hstep
    rcases hstep with rfl | rfl | rfl | rfl | rfl | rfl | rfl | rfl | rfl | rfl <;> rfl
  · intro hl10 hl90 step hstep
    have hq10 : (10 : ℚ) < (l : ℚ) := by exact_mod_cast hl10
    have hq90 : (l : ℚ) < 90 := by exact_mod_cast hl90
    simp [generateScale, levels] at hstep
    rcases hstep with rfl | rfl | rfl | rfl | rfl | rfl | rfl | rfl | rfl | rfl
    · exact ⟨fun _ => lt_jsRound_of_le _ _ (by linarith),
        fun hk => by norm_num at hk⟩
    · exact ⟨fun _ => lt_jsRound_of_le _ _ (by linarith),
        fun hk => by norm_num at hk⟩
    · exact ⟨fun _ => lt_jsRound_of_le _ _ (by linarith),
        fun hk => by norm_num at hk⟩
    · exact ⟨fun _ => lt_jsRound_of_le _ _ (by linarith),
        fun hk => by norm_num at hk⟩
    · exact ⟨fun _ => lt_jsRound_of_le _ _ (by linarith),
        fun hk => by norm_num at hk⟩
    · exact ⟨fun hk => by norm_num at hk, fun hk => by norm_num at hk⟩
    · exact ⟨fun hk => by norm_num at hk,
        fun _ => jsRound_lt_of_lt _ _ (by linarith)⟩
    · exact ⟨fun hk => by norm_num at hk,
        fun _ => jsRound_lt_of_lt _ _ (by linarith)⟩
    · exact ⟨fun hk => by norm_num at hk,
        fun _ => jsRound_lt_of_lt _ _ (by linarith)⟩
    · exact ⟨fun hk => by norm_num at hk,
        fun _ => jsRound_lt_of_lt _ _ (by linarith)⟩

theorem generateScale_spec_witness :
    ((generateScale ((217 : ℤ) : ℚ) ((91 : ℤ) : ℚ) ((60 : ℤ) : ℚ)).map fun st => st.key) =
      [50, 100, 200, 300, 400, 500, 600, 700, 800, 900] ∧
    (generateScale ((217 : ℤ) : ℚ) ((91 : ℤ) : ℚ) ((60 : ℤ) : ℚ)).get? 5 =
      some ⟨500, ((217 : ℤ) : ℚ), 91, 60⟩ :=
  ⟨(generateScale_spec 217 91 60).1, (generateScale_spec 217 91 60).2.1⟩

/-! ## C7 / C10 / C8 : hex parsing and formatting -/

theorem expandShorthand_length (l : List Char) :
    (expandShorthand l).length = 2 * l.length := by
  induction l with
  | nil => rfl
  | cons c cs ih =>
    simp only [expandShorthand, List.map_cons, List.flatten_cons, List.length_append,
      List.length_cons, List.length_nil] at ih ⊢
    omega

theorem hexSixToRgb_some_bounds (l : List Char) (h6 : l.length = 6) :
    ∃ c : RGB, hexSixToRgb l = some c ∧ 0 ≤ c.r ∧ c.r ≤ 255 ∧
      0 ≤ c.g ∧ c.g ≤ 255 ∧ 0 ≤ c.b ∧ c.b ≤ 255 := by
  unfold hexSixToRgb
  rw [if_pos h6]
  refine ⟨_, rfl, ?_, ?_, ?_, ?_, ?_, ?_⟩ <;>
    simp only [] <;>
    first
      | positivity
      | exact_mod_cast Nat.and_le_right

/-- C7: `hexToRgb` returns null exactly for the empty string or a
hash-stripped length other than 3 or 6; a length-3 input is parsed after
duplicating each character; every length-6 input parses to a non-null
result, hex digits or not. -/
theorem hexToRgb_null_spec (s : List Char) :
    ((hexToRgb s).isNone =
      (s.isEmpty ||
        !(decide ((stripHash s).length = 3) || decide ((stripHash s).length = 6)))) ∧
    ((stripHash s).length = 3 → hexToRgb s = hexSixToRgb (expandShorthand (stripHash s))) ∧
    ((stripHash s).length = 6 → (hexToRgb s).isSome = true) := by
  cases s with
  | nil =>
    exact ⟨rfl, fun h3 => absurd h3 (by decide), fun h6 => absurd h6 (by decide)⟩
  | cons c cs =>
    by_cases h3 : (stripHash (c :: cs)).length = 3
    · have h6 : (expandShorthand (stripHash (c :: cs))).length = 6 := by
        rw [expandShorthand_length, h3]
      obtain ⟨cc, hcc, -⟩ := hexSixToRgb_some_bounds _ h6
      refine ⟨?_, fun _ => ?_, fun h6' => ?_⟩
      · simp [hexToRgb, h3, hcc]
      · simp [hexToRgb, h3]
      · rw [h3] at h6'
        exact absurd h6' (by norm_num)
    · by_cases h6 : (stripHash (c :: cs)).length = 6
      · obtain ⟨cc, hcc, -⟩ := hexSixToRgb_some_bounds _ h6
        refine ⟨?_, fun h3' => absurd h3' h3, fun _ => ?_⟩
        · simp [hexToRgb, h3, h6, hcc]
        · simp [hexToRgb, h3, hcc]
      · refine ⟨?_, fun h3' => absurd h3' h3, fun h6' => absurd h6' h6⟩
        simp [hexToRgb, hexSixToRgb, h3, h6]

theorem hexToRgb_null_spec_witness :
    hexToRgb ['a', 'b', 'c'] = hexSixToRgb (expandShorthand (stripHash ['a', 'b', 'c'])) :=
  (hexToRgb_null_spec ['a', 'b', 'c']).2.1 (by rfl)

/-- C10: any string accepted by the `isValidHex` regex parses via
`hexToRgb` to a non-null RGB value whose channels lie in `[0, 255]`. -/
theorem isValidHex_sound (s : List Char) (hv : isValidHex s = true) :
    ∃ c : RGB, hexToRgb s = some c ∧ 0 ≤ c.r ∧ c.r ≤ 255 ∧
      0 ≤ c.g ∧ c.g ≤ 255 ∧ 0 ≤ c.b ∧ c.b ≤ 255 := by
  unfold isValidHex at hv
  rw [Bool.and_eq_true, Bool.or_eq_true] at hv
  obtain ⟨hlen, -⟩ := hv
  have hlen' : (stripHash s).length = 3 ∨ (stripHash s).length = 6 := by
    rcases hlen with h | h
    · exact Or.inl (by exact_mod_cast of_decide_eq_true h)
    · exact Or.inr (by exact_mod_cast of_decide_eq_true h)
  cases s with
  | nil =>
    exfalso
    simp [stripHash] at hlen'
  | cons c cs =>
    rcases hlen' with h3 | h6
    · have h6' : (expandShorthand (stripHash (c :: cs))).length = 6 := by
        rw [expandShorthand_length, h3]
      obtain ⟨cc, hcc, hb⟩ := hexSixToRgb_some_bounds _ h6'
      exact ⟨cc, by simp [hexToRgb, h3, hcc], hb⟩
    · have h3' : ¬(stripHash (c :: cs)).length = 3 := by omega
      obtain ⟨cc, hcc, hb⟩ := hexSixToRgb_some_bounds _ h6
      exact ⟨cc, by simp [hexToRgb, h3', hcc], hb⟩

theorem isValidHex_sound_witness :
    isValidHex ['#', '3', 'b', '8', '2', 'f', '6'] = true ∧
    ∃ c : RGB, hexToRgb ['#', '3', 'b', '8', '2', 'f', '6'] = some c ∧
      0 ≤ c.r ∧ c.r ≤ 255 ∧ 0 ≤ c.g ∧ c.g ≤ 255 ∧ 0 ≤ c.b ∧ c.b ≤ 255 :=
  ⟨by decide, isValidHex_sound ['#', '3', 'b', '8', '2', 'f', '6'] (by decide)⟩

theorem hexDigitVal?_hexDigitChar (k : ℕ) (hk : k < 16) :
    hexDigitVal? (hexDigitChar k) = some k := by
  interval_cases k <;> decide

theorem isHexDigit_hexDigitChar (k : ℕ) (hk : k < 16) :
    isHexDigit (hexDigitChar k) = true := by
  simp [isHexDigit, hexDigitVal?_hexDigitChar k hk]

theorem hexDigitChar_not_x (k : ℕ) (hk : k < 16) :
    ¬(hexDigitChar k = 'x' ∨ hexDigitChar k = 'X') := by
  interval_cases k <;> decide

theorem toHexChannel_eq (c : ℤ) (h0 : 0 ≤ c) (h255 : c ≤ 255) :
    toHexChannel c = [hexDigitChar (c.toNat / 16), hexDigitChar (c.toNat % 16)] := by
  unfold toHexChannel
  have hmax : max 0 (min 255 c) = c := by
    rw [min_eq_right h255]
    exact max_eq_right h0
  rw [hmax]
  dsimp only [natToHex]
  by_cases hlt : c.toNat < 16
  · rw [if_pos hlt]
    have hd : c.toNat / 16 = 0 := Nat.div_eq_of_lt hlt
    have hm : c.toNat % 16 = c.toNat := Nat.mod_eq_of_lt hlt
    rw [hd, hm]
    rfl
  · rw [if_neg hlt]
    rfl

theorem hexToRgb_hash_six (c1 c2 c3 c4 c5 c6 : Char) :
    hexToRgb ('#' :: [c1, c2, c3, c4, c5, c6]) = hexSixToRgb [c1, c2, c3, c4, c5, c6] := rfl

theorem parseInt16_digits (k1 k2 k3 k4 k5 k6 : ℕ) (h1 : k1 < 16) (h2 : k2 < 16)
    (h3 : k3 < 16) (h4 : k4 < 16) (h5 : k5 < 16) (h6 : k6 < 16) :
    parseInt16 [hexDigitChar k1, hexDigitChar k2, hexDigitChar k3,
        hexDigitChar k4, hexDigitChar k5, hexDigitChar k6] =
      some (((((k1 * 16 + k2) * 16 + k3) * 16 + k4) * 16 + k5) * 16 + k6) := by
  unfold parseInt16
  dsimp only
  have hstrip : (if hexDigitChar k1 = '0' ∧ (hexDigitChar k2 = 'x' ∨ hexDigitChar k2 = 'X')
      then [hexDigitChar k3, hexDigitChar k4, hexDigitChar k5, hexDigitChar k6]
      else [hexDigitChar k1, hexDigitChar k2, hexDigitChar k3, hexDigitChar k4,
        hexDigitChar k5, hexDigitChar k6]) =
      [hexDigitChar k1, hexDigitChar k2, hexDigitChar k3, hexDigitChar k4,
        hexDigitChar k5, hexDigitChar k6] :=
    if_neg fun hcon => hexDigitChar_not_x k2 h2 hcon.2
  rw [hstrip]
  simp [List.takeWhile_cons, List.isEmpty,
    isHexDigit_hexDigitChar k1 h1, isHexDigit_hexDigitChar k2 h2,
    isHexDigit_hexDigitChar k3 h3, isHexDigit_hexDigitChar k4 h4,
    isHexDigit_hexDigitChar k5 h5, isHexDigit_hexDigitChar k6 h6,
    hexDigitVal?_hexDigitChar k1 h1, hexDigitVal?_hexDigitChar k2 h2,
    hexDigitVal?_hexDigitChar k3 h3, hexDigitVal?_hexDigitChar k4 h4,
    hexDigitVal?_hexDigitChar k5 h5, hexDigitVal?_hexDigitChar k6 h6]
  ring

/-- C8: `hexToRgb` inverts `rgbToHex` exactly on every in-range RGB
triple. -/
theorem hexToRgb_rgbToHex (r g b : ℤ) (hr0 : 0 ≤ r) (hr1 : r ≤ 255)
    (hg0 : 0 ≤ g) (hg1 : g ≤ 255) (hb0 : 0 ≤ b) (hb1 : b ≤ 255) :
    hexToRgb (rgbToHex r g b) = some ⟨r, g, b⟩ := by
  have hra : r.toNat / 16 < 16 := by omega
  have hrb : r.toNat % 16 < 16 := by omega
  have hga : g.toNat / 16 < 16 := by omega
  have hgb : g.toNat % 16 < 16 := by omega
  have hba : b.toNat / 16 < 16 := by omega
  have hbb : b.toNat % 16 < 16 := by omega
  rw [rgbToHex, toHexChannel_eq r hr0 hr1, toHexChannel_eq g hg0 hg1,
    toHexChannel_eq b hb0 hb1]
  simp only [List.cons_append, List.nil_append]
  rw [hexToRgb_hash_six]
  unfold hexSixToRgb
  rw [if_pos (by rfl),
    parseInt16_digits _ _ _ _ _ _ hra hrb hga hgb hba hbb]
  have hV : ((((r.toNat / 16 * 16 + r.toNat % 16) * 16 + g.toNat / 16) * 16 +
      g.toNat % 16) * 16 + b.toNat / 16) * 16 + b.toNat % 16 =
      r.toNat * 65536 + g.toNat * 256 + b.toNat := by
    omega
  dsimp only [Option.getD]
  rw [hV]
  have e255 : (255 : ℕ) = 2 ^ 8 - 1 := rfl
  have hch1 : ((r.toNat * 65536 + g.toNat * 256 + b.toNat) >>> 16) &&& 255 = r.toNat := by
    rw [Nat.shiftRight_eq_div_pow, e255, Nat.and_pow_two_sub_one_eq_mod]
    omega
  have hch2 : ((r.toNat * 65536 + g.toNat * 256 + b.toNat) >>> 8) &&& 255 = g.toNat := by
    rw [Nat.shiftRight_eq_div_pow, e255, Nat.and_pow_two_sub_one_eq_mod]
    omega
  have hch3 : (r.toNat * 65536 + g.toNat * 256 + b.toNat) &&& 255 = b.toNat := by
    rw [e255, Nat.and_pow_two_sub_one_eq_mod]
    omega
  rw [hch1, hch2, hch3, Int.toNat_of_nonneg hr0, Int.toNat_of_nonneg hg0,
    Int.toNat_of_nonneg hb0]

theorem hexToRgb_rgbToHex_witness :
    hexToRgb (rgbToHex 59 130 246) = some ⟨59, 130, 246⟩ :=
  hexToRgb_rgbToHex 59 130 246 (by norm_num) (by norm_num) (by norm_num)
    (by norm_num) (by norm_num) (by norm_num)

/-! ## C4 : lock persistence across randomize -/

theorem generateHarmony_of_mem (base : HSL) (rule : String) (hm : rule ∈ harmonyTypes) :
    ∃ c1 c2 c3 c4 : HSL, generateHarmony base rule = [base, c1, c2, c3, c4] := by
  simp only [harmonyTypes, List.mem_cons, List.not_mem_nil, or_false] at hm
  rcases hm with rfl | rfl | rfl | rfl | rfl <;> exact ⟨_, _, _, _, rfl⟩

theorem pickRandomHarmony_mem (rnd : ℚ) (h0 : 0 ≤ rnd) (h1 : rnd < 1)
    (st : PaletteState) :
    (pickRandomHarmony rnd st).activeRandomHarmony ∈ harmonyTypes := by
  have hf0 : 0 ≤ ⌊rnd * 5⌋ := Int.floor_nonneg.2 (by positivity)
  have hf4 : ⌊rnd * 5⌋ < 5 := Int.floor_lt.2 (by push_cast; linarith)
  have hle : (⌊rnd * 5⌋).toNat ≤ 4 := by omega
  unfold pickRandomHarmony
  dsimp only
  set i := (⌊rnd * 5⌋).toNat with hi
  interval_cases i <;> simp [harmonyTypes]

theorem overlayLocked_get2 (st : PaletteState) (c0 c1 c2 c3 c4 : HSL) :
    (overlayLocked st 0 [c0, c1, c2, c3, c4]).get? 2 =
      some (if 2 ∈ st.lockedIndices then (st.lockedColors 2).getD c2 else c2) := by
  rfl

/-- C4: locking slot 2 and then randomizing in `random` mode leaves the
lock set and the frozen colors untouched, and the rendered palette still
shows the frozen color in slot 2, whatever the random draws produce. -/
theorem randomize_preserves_locks (st : PaletteState) (colorX : HSL)
    (rndRule rndH rndS rndL : ℚ) (hmode : st.harmonyType = "random")
    (h2 : 2 ∉ st.lockedIndices) (h0 : 0 ∉ st.lockedIndices)
    (hr0 : 0 ≤ rndRule) (hr1 : rndRule < 1) :
    (randomize rndRule rndH rndS rndL (toggleLock 2 colorX st)).lockedIndices =
      (toggleLock 2 colorX st).lockedIndices ∧
    (randomize rndRule rndH rndS rndL (toggleLock 2 colorX st)).lockedColors =
      (toggleLock 2 colorX st).lockedColors ∧
    (finalColors (randomize rndRule rndH rndS rndL (toggleLock 2 colorX st))).get? 2 =
      some colorX := by
  have ht : toggleLock 2 colorX st =
      { st with
        lockedIndices := insert 2 st.lockedIndices
        lockedColors := fun i => if i = 2 then some colorX else st.lockedColors i } := by
    unfold toggleLock
    rw [if_neg h2]
  have h0' : 0 ∉ insert 2 st.lockedIndices := by
    rw [Finset.mem_insert]
    push_neg
    exact ⟨by norm_num, h0⟩
  rw [ht]
  unfold randomize pickRandomHarmony
  simp only [hmode, if_pos, if_true, reduceIte]
  rw [if_neg h0']
  refine ⟨rfl, rfl, ?_⟩
  unfold finalColors effectiveType
  simp only [hmode, reduceIte]
  have hmem : harmonyTypes.getD (⌊rndRule * 5⌋).toNat "" ∈ harmonyTypes := by
    have := pickRandomHarmony_mem rndRule hr0 hr1 st
    simpa [pickRandomHarmony] using this
  obtain ⟨c1, c2, c3, c4, hgen⟩ := generateHarmony_of_mem
    ({ h := (⌊rndH * 360⌋ : ℤ), s := ((⌊rndS * 40⌋ + 60 : ℤ) : ℚ),
       l := ((⌊rndL * 40⌋ + 40 : ℤ) : ℚ) } : HSL)
    (harmonyTypes.getD (⌊rndRule * 5⌋).toNat "") hmem
  rw [hgen, overlayLocked_get2]
  simp [Finset.mem_insert]

theorem randomize_preserves_locks_witness :
    (randomize (1/2) (1/3) (1/4) (1/5)
        (toggleLock 2 ⟨1, 2, 3⟩
          ⟨⟨217, 91, 60⟩, "random", "analogous", ∅, fun _ => none⟩)).lockedIndices =
      (toggleLock 2 ⟨1, 2, 3⟩
        ⟨⟨217, 91, 60⟩, "random", "analogous", ∅, fun _ => none⟩).lockedIndices ∧
    (randomize (1/2) (1/3) (1/4) (1/5)
        (toggleLock 2 ⟨1, 2, 3⟩
          ⟨⟨217, 91, 60⟩, "random", "analogous", ∅, fun _ => none⟩)).lockedColors =
      (toggleLock 2 ⟨1, 2, 3⟩
        ⟨⟨217, 91, 60⟩, "random", "analogous", ∅, fun _ => none⟩).lockedColors ∧
    (finalColors (randomize (1/2) (1/3) (1/4) (1/5)
        (toggleLock 2 ⟨1, 2, 3⟩
          ⟨⟨217, 91, 60⟩, "random", "analogous", ∅, fun _ => none⟩))).get? 2 =
      some ⟨1, 2, 3⟩ :=
  randomize_preserves_locks ⟨⟨217, 91, 60⟩, "random", "analogous", ∅, fun _ => none⟩
    ⟨1, 2, 3⟩ (1/2) (1/3) (1/4) (1/5) rfl (by decide) (by decide)
    (by norm_num) (by norm_num)

/-! ## C2 : HSL round trip -/

theorem ramp_up_bounds (p q u : ℚ) (hpq : p ≤ q) (h0 : 0 ≤ u) (h1 : u ≤ 1/6) :
    p ≤ p + (q - p) * 6 * u ∧ p + (q - p) * 6 * u ≤ q := by
  constructor <;>
    nlinarith [mul_nonneg (sub_nonneg.mpr hpq) h0,
      mul_nonneg (sub_nonneg.mpr hpq) (show (0 : ℚ) ≤ 1 - 6 * u by linarith)]

theorem ramp_down_bounds (p q u : ℚ) (hpq : p ≤ q) (h0 : 1/2 ≤ u) (h1 : u ≤ 2/3) :
    p ≤ p + (q - p) * (2/3 - u) * 6 ∧ p + (q - p) * (2/3 - u) * 6 ≤ q := by
  constructor <;>
    nlinarith [mul_nonneg (sub_nonneg.mpr hpq) (show (0 : ℚ) ≤ 2/3 - u by linarith),
      mul_nonneg (sub_nonneg.mpr hpq) (show (0 : ℚ) ≤ 1 - (2/3 - u) * 6 by linarith)]

set_option maxHeartbeats 800000 in
theorem hue2rgb_mem (p q t : ℚ) (hpq : p ≤ q) (ht1 : -(1/3) ≤ t) (ht2 : t ≤ 4/3) :
    p ≤ hue2rgb p q t ∧ hue2rgb p q t ≤ q := by
  dsimp only [hue2rgb]
  split_ifs <;>
    first
      | exact ⟨le_rfl, hpq⟩
      | exact ⟨hpq, le_rfl⟩
      | (exfalso; linarith)
      | exact ramp_up_bounds p q _ hpq (by linarith) (by linarith)
      | exact ramp_down_bounds p q _ hpq (by linarith) (by linarith)

theorem hue2rgb_eq_q_mid (p q t : ℚ) (h1 : 1/6 ≤ t) (h2 : t ≤ 1/2) :
    hue2rgb p q t = q := by
  dsimp only [hue2rgb]
  split_ifs with c1 c2 c3 c4 c5 <;>
    first
      | rfl
      | linarith
      | (have ht : t = 1/2 := by linarith
         rw [ht]
         ring)

theorem hue2rgb_eq_q_hi (p q t : ℚ) (h1 : 7/6 ≤ t) (h2 : t ≤ 3/2) :
    hue2rgb p q t = q := by
  dsimp only [hue2rgb]
  split_ifs with c1 c2 c3 c4 c5 <;>
    first
      | rfl
      | linarith
      | (have ht : t = 3/2 := by linarith
         rw [ht]
         ring)

theorem hue2rgb_eq_p_mid (p q t : ℚ) (h1 : 2/3 ≤ t) (h2 : t ≤ 1) :
    hue2rgb p q t = p := by
  dsimp only [hue2rgb]
  split_ifs <;> first | rfl | linarith

theorem hue2rgb_eq_p_lo (p q t : ℚ) (h1 : -(1/3) ≤ t) (h2 : t ≤ 0) :
    hue2rgb p q t = p := by
  dsimp only [hue2rgb]
  split_ifs <;>
    first
      | rfl
      | linarith
      | (have ht : t = 0 := by linarith
         rw [ht]
         ring)

theorem hsl_channels_surround (H S L q p : ℚ) (hH0 : 0 ≤ H) (hH1 : H < 1)
    (hS0 : 0 ≤ S) (hL0 : 0 ≤ L) (hL1 : L ≤ 1)
    (hq : q = if L < 1/2 then L * (1 + S) else L + S - L * S)
    (hp : p = 2 * L - q) :
    p ≤ q ∧ p + q = 2 * L ∧
    (p ≤ hue2rgb p q (H + 1/3) ∧ hue2rgb p q (H + 1/3) ≤ q) ∧
    (p ≤ hue2rgb p q H ∧ hue2rgb p q H ≤ q) ∧
    (p ≤ hue2rgb p q (H - 1/3) ∧ hue2rgb p q (H - 1/3) ≤ q) ∧
    (hue2rgb p q (H + 1/3) = q ∨ hue2rgb p q H = q ∨ hue2rgb p q (H - 1/3) = q) ∧
    (hue2rgb p q (H + 1/3) = p ∨ hue2rgb p q H = p ∨ hue2rgb p q (H - 1/3) = p) := by
  have hpq : p ≤ q := by
    rcases lt_or_le L (1/2) with hc | hc
    · rw [if_pos hc] at hq
      rw [hq] at hp
      rw [hp, hq]
      nlinarith [mul_nonneg hL0 hS0]
    · rw [if_neg (not_lt.2 hc)] at hq
      rw [hq] at hp
      rw [hp, hq]
      nlinarith [mul_nonneg hS0 (sub_nonneg.mpr hL1)]
  have hsum : p + q = 2 * L := by
    rw [hp]
    ring
  refine ⟨hpq, hsum,
    hue2rgb_mem p q (H + 1/3) hpq (by linarith) (by linarith),
    hue2rgb_mem p q H hpq (by linarith) (by linarith),
    hue2rgb_mem p q (H - 1/3) hpq (by linarith) (by linarith), ?_, ?_⟩ <;>
  · rcases lt_or_le H (1/6) with h1 | h1
    case _ =>
      first
        | exact Or.inl (hue2rgb_eq_q_mid p q _ (by linarith) (by linarith))
        | exact Or.inr (Or.inr (hue2rgb_eq_p_lo p q _ (by linarith) (by linarith)))
    case _ =>
    rcases lt_or_le H (1/3) with h2 | h2
    case _ =>
      first
        | exact Or.inr (Or.inl (hue2rgb_eq_q_mid p q _ (by linarith) (by linarith)))
        | exact Or.inr (Or.inr (hue2rgb_eq_p_lo p q _ (by linarith) (by linarith)))
    case _ =>
    rcases lt_or_le H (1/2) with h3 | h3
    case _ =>
      first
        | exact Or.inr (Or.inl (hue2rgb_eq_q_mid p q _ (by linarith) (by linarith)))
        | exact Or.inl (hue2rgb_eq_p_mid p q _ (by linarith) (by linarith))
    case _ =>
    rcases lt_or_le H (2/3) with h4 | h4
    case _ =>
      first
        | exact Or.inr (Or.inr (hue2rgb_eq_q_mid p q _ (by linarith) (by linarith)))
        | exact Or.inl (hue2rgb_eq_p_mid p q _ (by linarith) (by linarith))
    case _ =>
    rcases lt_or_le H (5/6) with h5 | h5
    case _ =>
      first
        | exact Or.inr (Or.inr (hue2rgb_eq_q_mid p q _ (by linarith) (by linarith)))
        | exact Or.inr (Or.inl (hue2rgb_eq_p_mid p q _ (by linarith) (by linarith)))
    case _ =>
      first
        | exact Or.inl (hue2rgb_eq_q_hi p q _ (by linarith) (by linarith))
        | exact Or.inr (Or.inl (hue2rgb_eq_p_mid p q _ (by linarith) (by linarith)))

theorem rgbToHsl_l_eq (r g b : ℚ) :
    (rgbToHsl r g b).l =
      ((jsRound ((max (r / 255) (max (g / 255) (b / 255)) +
          min (r / 255) (min (g / 255) (b / 255))) / 2 * 100) : ℤ) : ℚ) := rfl

theorem rounded_maxmin_l (R G B p q : ℚ) (lInt : ℤ)
    (hsum : p + q = 2 * ((lInt : ℚ) / 100))
    (hRm : p ≤ R ∧ R ≤ q) (hGm : p ≤ G ∧ G ≤ q) (hBm : p ≤ B ∧ B ≤ q)
    (hqex : R = q ∨ G = q ∨ B = q) (hpex : R = p ∨ G = p ∨ B = p) :
    jsRound ((max ((jsRound (R * 255) : ℚ) / 255)
        (max ((jsRound (G * 255) : ℚ) / 255) ((jsRound (B * 255) : ℚ) / 255)) +
      min ((jsRound (R * 255) : ℚ) / 255)
        (min ((jsRound (G * 255) : ℚ) / 255) ((jsRound (B * 255) : ℚ) / 255))) /
        2 * 100) = lInt := by
  have hR1 := jsRound_le (R * 255)
  have hR2 := lt_jsRound (R * 255)
  have hG1 := jsRound_le (G * 255)
  have hG2 := lt_jsRound (G * 255)
  have hB1 := jsRound_le (B * 255)
  have hB2 := lt_jsRound (B * 255)
  set r' := ((jsRound (R * 255) : ℤ) : ℚ) with hr'
  set g' := ((jsRound (G * 255) : ℤ) : ℚ) with hg'
  set b' := ((jsRound (B * 255) : ℤ) : ℚ) with hb'
  set M := max (r' / 255) (max (g' / 255) (b' / 255)) with hM
  set N := min (r' / 255) (min (g' / 255) (b' / 255)) with hN
  have hM1 : M ≤ (q * 255 + 1/2) / 255 :=
    max_le (by rw [div_le_div_iff_of_pos_right (by norm_num)]; linarith [hRm.2])
      (max_le (by rw [div_le_div_iff_of_pos_right (by norm_num)]; linarith [hGm.2])
        (by rw [div_le_div_iff_of_pos_right (by norm_num)]; linarith [hBm.2]))
  have hN1 : (p * 255 - 1/2) / 255 ≤ N :=
    le_min (by rw [div_le_div_iff_of_pos_right (by norm_num)]; linarith [hRm.1])
      (le_min (by rw [div_le_div_iff_of_pos_right (by norm_num)]; linarith [hGm.1])
        (by rw [div_le_div_iff_of_pos_right (by norm_num)]; linarith [hBm.1]))
  have hM2 : (q * 255 - 1/2) / 255 ≤ M := by
    rcases hqex with hx | hx | hx
    · exact le_trans (by rw [div_le_div_iff_of_pos_right (by norm_num)]; linarith)
        (le_max_left _ _)
    · exact le_trans (le_trans (by rw [div_le_div_iff_of_pos_right (by norm_num)]; linarith)
        (le_max_left _ _)) (le_max_right _ _)
    · exact le_trans (le_trans (by rw [div_le_div_iff_of_pos_right (by norm_num)]; linarith)
        (le_max_right _ _)) (le_max_right _ _)
  have hN2 : N ≤ (p * 255 + 1/2) / 255 := by
    rcases hpex with hx | hx | hx
    · exact le_trans (min_le_left _ _)
        (by rw [div_le_div_iff_of_pos_right (by norm_num)]; linarith)
    · exact le_trans (le_trans (min_le_right _ _) (min_le_left _ _))
        (by rw [div_le_div_iff_of_pos_right (by norm_num)]; linarith)
    · exact le_trans (le_trans (min_le_right _ _) (min_le_right _ _))
        (by rw [div_le_div_iff_of_pos_right (by norm_num)]; linarith)
  apply jsRound_eq_of_bounds
  · linarith
  · linarith

/-- C2 (amended): composing `hslToRgb` then `rgbToHsl` recovers the
lightness component exactly, for every in-range integer HSL triple. -/
theorem roundtrip_lightness (h s l : ℤ) (hh0 : 0 ≤ h) (hh1 : h < 360)
    (hs0 : 0 ≤ s) (hs1 : s ≤ 100) (hl0 : 0 ≤ l) (hl1 : l ≤ 100) :
    (rgbToHsl ((hslToRgb (h : ℚ) (s : ℚ) (l : ℚ)).r : ℚ)
        ((hslToRgb (h : ℚ) (s : ℚ) (l : ℚ)).g : ℚ)
        ((hslToRgb (h : ℚ) (s : ℚ) (l : ℚ)).b : ℚ)).l = (l : ℚ) := by
  have hH0 : (0 : ℚ) ≤ (h : ℚ) / 360 := by positivity
  have hH1 : (h : ℚ) / 360 < 1 := by
    rw [div_lt_one (by norm_num)]
    exact_mod_cast hh1
  have hS0q : (0 : ℚ) ≤ (s : ℚ) / 100 := by positivity
  have hL0q : (0 : ℚ) ≤ (l : ℚ) / 100 := by positivity
  have hL1q : (l : ℚ) / 100 ≤ 1 := by
    rw [div_le_one (by norm_num)]
    exact_mod_cast hl1
  rw [rgbToHsl_l_eq]
  by_cases hS : (s : ℚ) / 100 = 0
  · have hrgb : hslToRgb (h : ℚ) (s : ℚ) (l : ℚ) =
        { r := jsRound ((l : ℚ) / 100 * 255), g := jsRound ((l : ℚ) / 100 * 255),
          b := jsRound ((l : ℚ) / 100 * 255) } := by
      dsimp only [hslToRgb]
      rw [if_pos hS]
    rw [hrgb]
    dsimp only
    simp only [max_self, min_self]
    have h1 := jsRound_le ((l : ℚ) / 100 * 255)
    have h2 := lt_jsRound ((l : ℚ) / 100 * 255)
    have hmain : jsRound ((((jsRound ((l : ℚ) / 100 * 255) : ℤ) : ℚ) / 255 +
        ((jsRound ((l : ℚ) / 100 * 255) : ℤ) : ℚ) / 255) / 2 * 100) = l := by
      apply jsRound_eq_of_bounds <;> linarith
    exact_mod_cast hmain
  · set Q := (if (l : ℚ) / 100 < 1/2 then (l : ℚ) / 100 * (1 + (s : ℚ) / 100)
      else (l : ℚ) / 100 + (s : ℚ) / 100 - (l : ℚ) / 100 * ((s : ℚ) / 100)) with hQ
    set P := 2 * ((l : ℚ) / 100) - Q with hP
    obtain ⟨hpq, hsum, hRmem, hGmem, hBmem, hqex, hpex⟩ :=
      hsl_channels_surround ((h : ℚ) / 360) ((s : ℚ) / 100) ((l : ℚ) / 100) Q P
        hH0 hH1 hS0q hL0q hL1q hQ hP
    have hrgb : hslToRgb (h : ℚ) (s : ℚ) (l : ℚ) =
        { r := jsRound (hue2rgb P Q ((h : ℚ) / 360 + 1/3) * 255)
          g := jsRound (hue2rgb P Q ((h : ℚ) / 360) * 255)
          b := jsRound (hue2rgb P Q ((h : ℚ) / 360 - 1/3) * 255) } := by
      dsimp only [hslToRgb]
      rw [if_neg hS]
    rw [hrgb]
    dsimp only
    exact_mod_cast rounded_maxmin_l (hue2rgb P Q ((h : ℚ) / 360 + 1/3))
      (hue2rgb P Q ((h : ℚ) / 360)) (hue2rgb P Q ((h : ℚ) / 360 - 1/3)) P Q l
      hsum hRmem hGmem hBmem hqex hpex

/-- C2 (counterexample): for the in-range triple `(300, 100, 0)` the
round trip returns saturation 0, off from the original 100 by far more
than 1 (the original hue 300 is likewise lost, returning 0). -/
theorem roundtrip_hsl_counterexample :
    (rgbToHsl ((hslToRgb 300 100 0).r : ℚ) ((hslToRgb 300 100 0).g : ℚ)
        ((hslToRgb 300 100 0).b : ℚ)).s = 0 ∧
    (1 : ℚ) < 100 - (rgbToHsl ((hslToRgb 300 100 0).r : ℚ) ((hslToRgb 300 100 0).g : ℚ)
        ((hslToRgb 300 100 0).b : ℚ)).s := by
  have h1 : hslToRgb 300 100 0 = ⟨0, 0, 0⟩ := by
    norm_num [hslToRgb, hue2rgb, jsRound]
  have h2 : rgbToHsl ((0 : ℤ) : ℚ) ((0 : ℤ) : ℚ) ((0 : ℤ) : ℚ) = ⟨0, 0, 0⟩ := by
    norm_num [rgbToHsl, jsRound]
  rw [h1, h2]
  norm_num

theorem roundtrip_lightness_witness :
    (rgbToHsl ((hslToRgb ((217 : ℤ) : ℚ) ((91 : ℤ) : ℚ) ((60 : ℤ) : ℚ)).r : ℚ)
        ((hslToRgb ((217 : ℤ) : ℚ) ((91 : ℤ) : ℚ) ((60 : ℤ) : ℚ)).g : ℚ)
        ((hslToRgb ((217 : ℤ) : ℚ) ((91 : ℤ) : ℚ) ((60 : ℤ) : ℚ)).b : ℚ)).l =
      ((60 : ℤ) : ℚ) :=
  roundtrip_lightness 217 91 60 (by norm_num) (by norm_num) (by norm_num)
    (by norm_num) (by norm_num) (by norm_num)
